import Mathlib

/-!
Shallow embedding of the `network-monitor` tray application (Rust) and
verification of its specification claims.

Rust `&str` values are embedded as `List Char` (written `Str` below); Rust
unsigned machine integers are embedded as `Nat` with explicit `% 2^w`
wrapping where overflow matters.  Filesystem reads are embedded as an
explicit `FileRead` state (missing / unreadable / content), and functions
with filesystem effects take the relevant file state and return the new one.
The network is embedded as an outcome parameter.
-/

/-- A Rust `&str` / `String`, embedded as its character list. -/
abbrev Str := List Char

/-- `2^32`, the modulus of Rust `u32`. -/
def U32_MOD : Nat := 2 ^ 32

/-- `2^64`, the modulus of Rust `u64`. -/
def U64_MOD : Nat := 2 ^ 64

/-- Rust `str::split(sep)` for a one-character separator: splits into the
(possibly empty) runs between separator occurrences; the empty string
yields `[""]`. -/
def splitChar (sep : Char) : Str → List Str
  | [] => [[]]
  | c :: rest =>
    if c = sep then [] :: splitChar sep rest
    else
      match splitChar sep rest with
      | [] => [[c]]
      | g :: gs => (c :: g) :: gs

/-- Rust `str::parse::<uN>()` (via `FromStr` for unsigned integers) with
modulus `bound`: an optional leading `+`, then at least one ASCII digit,
and the value must fit below `bound`; anything else is a parse error. -/
def parseUInt (bound : Nat) (s : Str) : Option Nat :=
  let ds := match s with
    | '+' :: rest => rest
    | other => other
  if ds.isEmpty || !ds.all Char.isDigit then none
  else
    let v := ds.foldl (fun a c => a * 10 + (c.toNat - 48)) 0
    if v < bound then some v else none

/-- Rust `char::is_whitespace` restricted to the ASCII whitespace that
`last-check` contents can contain. -/
def isWS (c : Char) : Bool := c = ' ' || c = '\t' || c = '\n' || c = '\r'

/-- Rust `str::trim`: strip leading and trailing whitespace. -/
def trimChars (s : Str) : Str :=
  ((s.dropWhile isWS).reverse.dropWhile isWS).reverse

/-- Rust `str::trim_start_matches('v')`: drop every leading `v`. -/
def trim_start_matches_v (s : Str) : Str :=
  s.dropWhile (fun c => c = 'v')

/-! ## `src/updater.rs`: version comparison -/

/-- The component-parsing closure inside `is_newer_version`
(`updater.rs:142-146`): split on `.` and keep the components that parse
as `u32`, silently dropping the ones that do not (`filter_map`). -/
def parseVersion (v : Str) : List Nat :=
  (splitChar '.' v).filterMap (parseUInt U32_MOD)

/-- `parts.get(i).copied().unwrap_or(0)` (`updater.rs:152-153`). -/
def getComp (l : List Nat) (i : Nat) : Nat := (l.get? i).getD 0

/-- `is_newer_version` (`updater.rs:141-162`): the `for i in 0..3` loop
unrolled — compare the zero-defaulted components left to right; the first
strict inequality decides, all-equal means not newer. -/
def is_newer_version (latest current : Str) : Bool :=
  let latest_parts := parseVersion latest
  let current_parts := parseVersion current
  if getComp latest_parts 0 > getComp current_parts 0 then true
  else if getComp latest_parts 0 < getComp current_parts 0 then false
  else if getComp latest_parts 1 > getComp current_parts 1 then true
  else if getComp latest_parts 1 < getComp current_parts 1 then false
  else if getComp latest_parts 2 > getComp current_parts 2 then true
  else if getComp latest_parts 2 < getComp current_parts 2 then false
  else false

/-- The zero-padded `(major, minor, patch)` triple that the code's parse
assigns to a version string. -/
def tripleOf (v : Str) : Nat × Nat × Nat :=
  let l := parseVersion v
  (getComp l 0, getComp l 1, getComp l 2)

/-- Spec-side triple of a version string, following the spec's words:
each dot-separated component read as an unsigned integer, missing
trailing components defaulting to zero. -/
def versionTriple (v : Str) : Nat × Nat × Nat :=
  let l := (splitChar '.' v).map (fun s => (parseUInt U32_MOD s).getD 0)
  (getComp l 0, getComp l 1, getComp l 2)

/-- Spec-side lexicographic "newer" on triples: the first differing
component decides; equal in all three is not newer. -/
def lexNewer : Nat × Nat × Nat → Nat × Nat × Nat → Bool
  | (a₀, a₁, a₂), (b₀, b₁, b₂) =>
    if a₀ ≠ b₀ then decide (a₀ > b₀)
    else if a₁ ≠ b₁ then decide (a₁ > b₁)
    else if a₂ ≠ b₂ then decide (a₂ > b₂)
    else false

/-- Every dot-separated component of `v` parses as a `u32`. -/
def numericComponents (v : Str) : Bool :=
  (splitChar '.' v).all (fun s => (parseUInt U32_MOD s).isSome)

/-- A version string in the spec's scope: all components numeric, at most
three of them. -/
def goodVersion (v : Str) : Bool :=
  numericComponents v && (splitChar '.' v).length ≤ 3

/-! ### Bridge lemmas for the version comparison -/

theorem unrolled_eq_lexNewer (x₀ x₁ x₂ y₀ y₁ y₂ : Nat) :
    (if x₀ > y₀ then true else if x₀ < y₀ then false
     else if x₁ > y₁ then true else if x₁ < y₁ then false
     else if x₂ > y₂ then true else if x₂ < y₂ then false else false)
    = lexNewer (x₀, x₁, x₂) (y₀, y₁, y₂) := by
  simp only [lexNewer]
  split_ifs <;> simp_all <;> omega

theorem is_newer_eq_lex (a b : Str) :
    is_newer_version a b = lexNewer (tripleOf a) (tripleOf b) := by
  simp only [is_newer_version, tripleOf]
  exact unrolled_eq_lexNewer _ _ _ _ _ _

theorem filterMap_eq_map_getD (l : List Str)
    (h : ∀ s ∈ l, (parseUInt U32_MOD s).isSome = true) :
    l.filterMap (parseUInt U32_MOD)
      = l.map (fun s => (parseUInt U32_MOD s).getD 0) := by
  induction l with
  | nil => rfl
  | cons x xs ih =>
    have hx := h x (List.mem_cons_self x xs)
    cases hpx : parseUInt U32_MOD x with
    | none => rw [hpx] at hx; simp at hx
    | some v =>
      simp only [List.filterMap_cons, List.map_cons, hpx, Option.getD_some]
      rw [ih (fun s hs => h s (List.mem_cons_of_mem x hs))]

theorem tripleOf_eq_versionTriple (v : Str) (h : numericComponents v = true) :
    tripleOf v = versionTriple v := by
  simp only [tripleOf, versionTriple, parseVersion]
  rw [filterMap_eq_map_getD]
  intro s hs
  simpa using (List.all_eq_true.mp h) s hs

theorem lexNewer_irrefl (t : Nat × Nat × Nat) : lexNewer t t = false := by
  obtain ⟨a₀, a₁, a₂⟩ := t
  simp [lexNewer]

theorem lexNewer_asymm (s t : Nat × Nat × Nat) (h : lexNewer s t = true) :
    lexNewer t s = false := by
  obtain ⟨a₀, a₁, a₂⟩ := s
  obtain ⟨b₀, b₁, b₂⟩ := t
  simp only [lexNewer] at h ⊢
  split_ifs at h ⊢ <;> simp_all <;> omega

theorem lexNewer_trans (s t u : Nat × Nat × Nat) (h₁ : lexNewer s t = true)
    (h₂ : lexNewer t u = true) : lexNewer s u = true := by
  obtain ⟨a₀, a₁, a₂⟩ := s
  obtain ⟨b₀, b₁, b₂⟩ := t
  obtain ⟨c₀, c₁, c₂⟩ := u
  simp only [lexNewer] at h₁ h₂ ⊢
  split_ifs at h₁ h₂ ⊢ <;> simp_all <;> omega

theorem lexNewer_iff (a₀ a₁ a₂ b₀ b₁ b₂ : Nat) :
    lexNewer (a₀, a₁, a₂) (b₀, b₁, b₂) = true ↔
      a₀ > b₀ ∨ (a₀ = b₀ ∧ (a₁ > b₁ ∨ (a₁ = b₁ ∧ a₂ > b₂))) := by
  simp only [lexNewer]
  split_ifs <;> simp_all

theorem lexNewer_total (s t : Nat × Nat × Nat) (h : s ≠ t) :
    lexNewer s t = (!lexNewer t s) := by
  obtain ⟨a₀, a₁, a₂⟩ := s
  obtain ⟨b₀, b₁, b₂⟩ := t
  have hne : ¬(a₀ = b₀ ∧ a₁ = b₁ ∧ a₂ = b₂) := by
    intro hc
    exact h (by simp [hc.1, hc.2.1, hc.2.2])
  cases h₁ : lexNewer (b₀, b₁, b₂) (a₀, a₁, a₂) with
  | false =>
    have h₁' := (Bool.eq_false_iff.mp h₁)
    rw [Ne, lexNewer_iff] at h₁'
    simp only [Bool.not_false]
    rw [lexNewer_iff]
    omega
  | true =>
    have h₁' := lexNewer_iff b₀ b₁ b₂ a₀ a₁ a₂ |>.mp h₁
    simp only [Bool.not_true]
    refine Bool.eq_false_iff.mpr ?_
    rw [Ne, lexNewer_iff]
    omega

/-- Claim C1: `is_newer_version` treats each string as a zero-padded
triple of dot-separated unsigned integer components and returns true iff
the candidate triple is lexicographically greater than the current triple
(first differing component decides; all equal is not newer), with the five
quoted example evaluations. -/
theorem C1_version_compare :
    (∀ a b : Str, numericComponents a = true → numericComponents b = true →
        is_newer_version a b = lexNewer (versionTriple a) (versionTriple b))
    ∧ is_newer_version "0.2.0".data "0.1.0".data = true
    ∧ is_newer_version "1.0.0".data "0.9.9".data = true
    ∧ is_newer_version "0.1.1".data "0.1.0".data = true
    ∧ is_newer_version "0.1.0".data "0.1.0".data = false
    ∧ is_newer_version "0.1.0".data "0.2.0".data = false := by
  refine ⟨?_, by decide, by decide, by decide, by decide, by decide⟩
  intro a b ha hb
  rw [is_newer_eq_lex, tripleOf_eq_versionTriple a ha, tripleOf_eq_versionTriple b hb]

/-- Witness for C1 at concrete inputs. -/
theorem C1_version_compare_witness :
    numericComponents "0.2.0".data = true ∧
    is_newer_version "0.2.0".data "0.1.0".data
      = lexNewer (versionTriple "0.2.0".data) (versionTriple "0.1.0".data) :=
  ⟨by decide, C1_version_compare.1 "0.2.0".data "0.1.0".data (by decide) (by decide)⟩

/-- Claim C7: on version strings with at most three numeric components,
`is_newer_version` is a strict total order consistent with lexicographic
comparison of the zero-padded triples: irreflexive, asymmetric, transitive,
and total on strings with distinct triples. -/
theorem C7_strict_total_order :
    ∀ a b c : Str, goodVersion a = true → goodVersion b = true →
      goodVersion c = true →
      is_newer_version a a = false
      ∧ (is_newer_version a b = true → is_newer_version b a = false)
      ∧ (is_newer_version a b = true → is_newer_version b c = true →
          is_newer_version a c = true)
      ∧ (versionTriple a ≠ versionTriple b →
          is_newer_version a b = (!is_newer_version b a)) := by
  intro a b c ha hb hc
  have hna : numericComponents a = true := by
    have h := ha; simp only [goodVersion, Bool.and_eq_true] at h; exact h.1
  have hnb : numericComponents b = true := by
    have h := hb; simp only [goodVersion, Bool.and_eq_true] at h; exact h.1
  refine ⟨?_, ?_, ?_, ?_⟩
  · rw [is_newer_eq_lex]; exact lexNewer_irrefl _
  · intro h
    rw [is_newer_eq_lex] at h ⊢
    exact lexNewer_asymm _ _ h
  · intro h₁ h₂
    rw [is_newer_eq_lex] at h₁ h₂ ⊢
    exact lexNewer_trans _ _ _ h₁ h₂
  · intro hne
    rw [is_newer_eq_lex, is_newer_eq_lex]
    refine lexNewer_total _ _ ?_
    rw [tripleOf_eq_versionTriple a hna, tripleOf_eq_versionTriple b hnb]
    exact hne

/-- Witness for C7 at concrete inputs. -/
theorem C7_strict_total_order_witness :
    goodVersion "0.2.0".data = true ∧
    is_newer_version "0.2.0".data "0.2.0".data = false :=
  ⟨by decide,
   (C7_strict_total_order "0.2.0".data "0.1.0".data "0.0.9".data
      (by decide) (by decide) (by decide)).1⟩

/-! ## `src/network.rs`: the network watcher -/

/-- NetworkManager connectivity states (`network.rs:12-21`). -/
inductive NetworkState
  | Unknown
  | Asleep
  | Disconnected
  | Disconnecting
  | Connecting
  | ConnectedLocal
  | ConnectedSite
  | ConnectedGlobal
deriving DecidableEq, Repr

/-- `impl From<u32> for NetworkState` (`network.rs:23-37`): decode the
raw state code, any unknown code mapping to `Unknown`. -/
def NetworkState.fromU32 (value : Nat) : NetworkState :=
  match value with
  | 0 => NetworkState.Unknown
  | 10 => NetworkState.Asleep
  | 20 => NetworkState.Disconnected
  | 30 => NetworkState.Disconnecting
  | 40 => NetworkState.Connecting
  | 50 => NetworkState.ConnectedLocal
  | 60 => NetworkState.ConnectedSite
  | 70 => NetworkState.ConnectedGlobal
  | _ => NetworkState.Unknown

/-- `NetworkState::is_connected` (`network.rs:41-43`): only
`ConnectedGlobal` counts as full connectivity. -/
def NetworkState.is_connected (s : NetworkState) : Bool :=
  match s with
  | NetworkState.ConnectedGlobal => true
  | _ => false

/-- Events emitted by the network monitor (`network.rs:48-53`). -/
inductive NetworkEvent
  | Connected
  | Disconnected
deriving DecidableEq, Repr

/-- The mutable state of the watcher loop (`network.rs:88-89`):
`was_connected` and `last_connections`. -/
structure WatcherState where
  was_connected : Bool
  last_connections : Nat
deriving DecidableEq, Repr

/-- One iteration of the watcher loop on a connectivity-state change
notification carrying raw value `new_val` (`network.rs:100-119`): decode
the state, compute the connectivity predicate, and when it differs from
`was_connected` emit `Connected`/`Disconnected` and record the new flag. -/
def stepStateChange (w : WatcherState) (new_val : Nat) :
    WatcherState × List NetworkEvent :=
  let new_state := NetworkState.fromU32 new_val
  let ic := new_state.is_connected
  if ic ≠ w.was_connected then
    ({ w with was_connected := ic },
     [if ic then NetworkEvent.Connected else NetworkEvent.Disconnected])
  else (w, [])

/-- One iteration of the watcher loop on an active-connection-count change
notification carrying `new_count` (`network.rs:120-133`): emit `Connected`
when the count differs from the last observed one while connected, and
record the new count in either case. -/
def stepConnChange (w : WatcherState) (new_count : Nat) :
    WatcherState × List NetworkEvent :=
  let evs :=
    if new_count ≠ w.last_connections ∧ w.was_connected = true then
      [NetworkEvent.Connected]
    else []
  ({ w with last_connections := new_count }, evs)

/-- The watcher run over a whole sequence of state-change notifications,
concatenating the emitted events. -/
def runStateChanges (w : WatcherState) : List Nat → WatcherState × List NetworkEvent
  | [] => (w, [])
  | v :: vs =>
    let s₁ := stepStateChange w v
    let s₂ := runStateChanges s₁.1 vs
    (s₂.1, s₁.2 ++ s₂.2)

/-- Spec-side event stream: starting from flag `b`, a notification with
raw code `v` emits an event iff the is-fully-connected predicate
(`v = 70`, ConnectedGlobal) differs from the flag — `Connected` when it
becomes true, `Disconnected` when it becomes false — updating the flag on
each emission. -/
def specEvents (b : Bool) : List Nat → List NetworkEvent
  | [] => []
  | v :: vs =>
    let c : Bool := v == 70
    if c ≠ b then
      (if c then NetworkEvent.Connected else NetworkEvent.Disconnected)
        :: specEvents c vs
    else specEvents b vs

theorem fromU32_is_connected (v : Nat) :
    (NetworkState.fromU32 v).is_connected = (v == 70) := by
  unfold NetworkState.fromU32
  split <;> simp_all [NetworkState.is_connected]

theorem stepStateChange_last_connections (w : WatcherState) (v : Nat) :
    (stepStateChange w v).1.last_connections = w.last_connections := by
  simp only [stepStateChange]
  split <;> rfl

theorem specEvents_cons (b : Bool) (v : Nat) (vs : List Nat) :
    specEvents b (v :: vs)
      = if (v == 70) ≠ b then
          (if (v == 70) then NetworkEvent.Connected else NetworkEvent.Disconnected)
            :: specEvents (v == 70) vs
        else specEvents b vs := rfl

theorem runStateChanges_spec (vs : List Nat) :
    ∀ w : WatcherState, (runStateChanges w vs).2 = specEvents w.was_connected vs
      ∧ (runStateChanges w vs).1.was_connected
          = vs.foldl (fun b v => if (v == 70) ≠ b then (v == 70) else b) w.was_connected := by
  induction vs with
  | nil => intro w; exact ⟨rfl, rfl⟩
  | cons v vs ih =>
    intro w
    have hstep : (stepStateChange w v).1.was_connected
        = (if (v == 70) ≠ w.was_connected then (v == 70) else w.was_connected) := by
      unfold stepStateChange
      simp only [fromU32_is_connected]
      split <;> simp_all
    have hev : (stepStateChange w v).2
        = (if (v == 70) ≠ w.was_connected then
            [if (v == 70) then NetworkEvent.Connected else NetworkEvent.Disconnected]
           else []) := by
      unfold stepStateChange
      simp only [fromU32_is_connected]
      split <;> simp_all
    obtain ⟨ih₁, ih₂⟩ := ih (stepStateChange w v).1
    constructor
    · show (stepStateChange w v).2 ++ (runStateChanges (stepStateChange w v).1 vs).2
        = specEvents w.was_connected (v :: vs)
      rw [ih₁, hev, hstep, specEvents_cons]
      by_cases hc : (v == 70) = w.was_connected
      · simp [hc]
      · simp [hc]
    · show (runStateChanges (stepStateChange w v).1 vs).1.was_connected = _
      rw [ih₂, hstep]
      rfl

theorem stepStateChange_events (w : WatcherState) (v : Nat) :
    (stepStateChange w v).2
      = if (NetworkState.fromU32 v).is_connected ≠ w.was_connected then
          [if (NetworkState.fromU32 v).is_connected then NetworkEvent.Connected
           else NetworkEvent.Disconnected]
        else [] := by
  simp only [stepStateChange]
  split <;> simp_all

theorem stepStateChange_was_connected (w : WatcherState) (v : Nat) :
    (stepStateChange w v).1.was_connected
      = (NetworkState.fromU32 v).is_connected := by
  simp only [stepStateChange]
  split <;> simp_all

/-- Claim C2: from any initial `was_connected` flag, the watcher emits an
event on a state-change notification iff the is-fully-connected predicate
(code 70, ConnectedGlobal) changes value relative to `was_connected` —
`Connected` when it becomes true, `Disconnected` when it becomes false —
updating the flag; over any notification sequence the emitted stream is
the edge-triggered one, with exactly one `Connected` for 20→70, zero
events for 70→70 and for any transition between two non-ConnectedGlobal
states, and exactly one `Disconnected` for 70→60. -/
theorem C2_edge_triggered_events :
    (∀ (w : WatcherState) (vs : List Nat),
        (runStateChanges w vs).2 = specEvents w.was_connected vs)
    ∧ (∀ (w : WatcherState) (v : Nat),
        (stepStateChange w v).2
          = (if (NetworkState.fromU32 v).is_connected ≠ w.was_connected then
              [if (NetworkState.fromU32 v).is_connected then NetworkEvent.Connected
               else NetworkEvent.Disconnected]
             else [])
        ∧ (stepStateChange w v).1.was_connected
            = (NetworkState.fromU32 v).is_connected
        ∧ (stepStateChange w v).1.last_connections = w.last_connections)
    ∧ (∀ w : WatcherState,
        (stepStateChange (stepStateChange w 20).1 70).2 = [NetworkEvent.Connected])
    ∧ (∀ w : WatcherState,
        (stepStateChange (stepStateChange w 70).1 70).2 = [])
    ∧ (∀ (w : WatcherState) (v₁ v₂ : Nat),
        (NetworkState.fromU32 v₁).is_connected = false →
        (NetworkState.fromU32 v₂).is_connected = false →
        (stepStateChange (stepStateChange w v₁).1 v₂).2 = [])
    ∧ (∀ w : WatcherState,
        (stepStateChange (stepStateChange w 70).1 60).2 = [NetworkEvent.Disconnected]) := by
  refine ⟨fun w vs => (runStateChanges_spec vs w).1,
    fun w v => ⟨stepStateChange_events w v, stepStateChange_was_connected w v,
      stepStateChange_last_connections w v⟩, ?_, ?_, ?_, ?_⟩
  · intro w
    rw [stepStateChange_events, stepStateChange_was_connected]
    decide
  · intro w
    rw [stepStateChange_events, stepStateChange_was_connected]
    decide
  · intro w v₁ v₂ h₁ h₂
    rw [stepStateChange_events, stepStateChange_was_connected, h₁, h₂]
    simp
  · intro w
    rw [stepStateChange_events, stepStateChange_was_connected]
    decide

/-- Witness for C2 at concrete inputs. -/
theorem C2_edge_triggered_events_witness :
    (NetworkState.fromU32 20).is_connected = false
    ∧ (NetworkState.fromU32 30).is_connected = false
    ∧ (stepStateChange (stepStateChange ⟨false, 0⟩ 20).1 30).2 = [] :=
  ⟨by decide, by decide,
   C2_edge_triggered_events.2.2.2.2.1 ⟨false, 0⟩ 20 30 (by decide) (by decide)⟩

/-- Claim C6: on a connection-count change notification the watcher emits
`Connected` iff the new count differs from the last observed one and
`was_connected` is currently true, and the stored count is updated to the
new value in both cases while the connected flag is untouched; in
particular a 2→3 change while connected emits `Connected` and the same
change while disconnected emits nothing. -/
theorem C6_conn_count_change :
    (∀ (w : WatcherState) (n : Nat),
        ((stepConnChange w n).2 = [NetworkEvent.Connected]
            ↔ n ≠ w.last_connections ∧ w.was_connected = true)
        ∧ ((stepConnChange w n).2 = []
            ↔ ¬(n ≠ w.last_connections ∧ w.was_connected = true))
        ∧ (stepConnChange w n).1.last_connections = n
        ∧ (stepConnChange w n).1.was_connected = w.was_connected)
    ∧ stepConnChange ⟨true, 2⟩ 3 = (⟨true, 3⟩, [NetworkEvent.Connected])
    ∧ stepConnChange ⟨false, 2⟩ 3 = (⟨false, 3⟩, []) := by
  refine ⟨fun w n => ?_, by decide, by decide⟩
  by_cases h : n ≠ w.last_connections ∧ w.was_connected = true <;>
    simp [stepConnChange, h]

/-! ## `src/updater.rs`: rate limiting and persistence

Filesystem reads are embedded as a `FileRead` state.  `dirs::config_dir()`
may be unavailable; that is the `cfg : Bool` parameter.  The current time
(`SystemTime::now` as epoch seconds, a `u64`) and the remote GitHub query
outcome are explicit parameters.  Writes are assumed to succeed (the code
ignores their results), so a write replaces the file's content. -/

/-- What reading a file can observe: absent, unreadable, or its content. -/
inductive FileRead
  | missing
  | unreadable
  | content (s : Str)
deriving DecidableEq, Repr

/-- `CHECK_INTERVAL_SECS` (`updater.rs:8`). -/
def CHECK_INTERVAL_SECS : Nat := 86400

/-- Wrapping `u64` subtraction `a - b` (release-profile Rust semantics). -/
def wsub64 (a b : Nat) : Nat :=
  (a % U64_MOD + (U64_MOD - b % U64_MOD)) % U64_MOD

/-- `should_check` (`updater.rs:21-45`): no config dir means no check;
a missing, unreadable or unparseable `last-check` file means check; else
check iff the wrapping difference `now - last_check` is at least one day. -/
def should_check (cfg : Bool) (now : Nat) (last_check_file : FileRead) : Bool :=
  if !cfg then false
  else
    match last_check_file with
    | FileRead.missing => true
    | FileRead.unreadable => true
    | FileRead.content s =>
      match parseUInt U64_MOD (trimChars s) with
      | none => true
      | some last_check => decide (wsub64 now last_check ≥ CHECK_INTERVAL_SECS)

/-- `save_last_check` (`updater.rs:48-62`): write the current epoch time
as decimal text, a no-op when the config dir is unavailable. -/
def save_last_check (cfg : Bool) (now : Nat) (last_check_file : FileRead) : FileRead :=
  if cfg then FileRead.content (Nat.toDigits 10 (now % U64_MOD)) else last_check_file

/-- Outcome of the GitHub "latest release" request: transport/JSON failure,
or a successful response carrying `tag_name` (`updater.rs:65-96`). -/
inductive Remote
  | fail
  | release (tag_name : Str)
deriving DecidableEq, Repr

/-- `check_for_update_internal` (`updater.rs:84-109`), parametrized by the
installed version (`VERSION` comes from Cargo metadata, outside `src/`):
any request failure collapses to `none`; otherwise strip leading `v` from
the tag and return the raw tag iff it differs from and is newer than the
current version. -/
def check_for_update_internal (current : Str) (r : Remote) : Option Str :=
  match r with
  | Remote.fail => none
  | Remote.release tag_name =>
    let latest := trim_start_matches_v tag_name
    if decide (latest ≠ current) && is_newer_version latest current then
      some tag_name
    else none

/-- Result of `check_for_update`: the returned value, the `last-check`
file afterwards, and whether the network request was performed. -/
structure CheckResult where
  result : Option Str
  last_check_file : FileRead
  network_performed : Bool
deriving DecidableEq, Repr

/-- `check_for_update` (`updater.rs:71-77`): bail out without touching
anything when `should_check` is false, else persist "now" and perform the
remote check. -/
def check_for_update (cfg : Bool) (now : Nat) (f : FileRead) (current : Str)
    (r : Remote) : CheckResult :=
  if should_check cfg now f then
    { result := check_for_update_internal current r
      last_check_file := save_last_check cfg now f
      network_performed := true }
  else
    { result := none, last_check_file := f, network_performed := false }

/-- `check_for_update_forced` (`updater.rs:80-82`): just the internal
check; the `last-check` file state is passed through untouched, since the
body performs no filesystem access. -/
def check_for_update_forced (f : FileRead) (current : Str) (r : Remote) :
    Option Str × FileRead :=
  (check_for_update_internal current r, f)

theorem parseUInt_lt {bound : Nat} {s : Str} {v : Nat}
    (h : parseUInt bound s = some v) : v < bound := by
  simp only [parseUInt] at h
  split_ifs at h
  all_goals simp_all

theorem wsub64_exact (a b : Nat) (ha : a < U64_MOD) (hb : b < U64_MOD)
    (h : b ≤ a) : wsub64 a b = a - b := by
  simp only [wsub64, U64_MOD] at *
  rw [Nat.mod_eq_of_lt ha, Nat.mod_eq_of_lt hb]
  have h1 : a + (2 ^ 64 - b) = 2 ^ 64 + (a - b) := by omega
  rw [h1, Nat.add_mod_left]
  exact Nat.mod_eq_of_lt (by omega)

theorem wsub64_wrap (a b : Nat) (ha : a < U64_MOD) (hb : b < U64_MOD)
    (h : a < b) : wsub64 a b = U64_MOD - (b - a) := by
  simp only [wsub64, U64_MOD] at *
  rw [Nat.mod_eq_of_lt ha, Nat.mod_eq_of_lt hb]
  have h1 : a + (2 ^ 64 - b) = 2 ^ 64 - (b - a) := by omega
  rw [h1]
  exact Nat.mod_eq_of_lt (by omega)

theorem should_check_fresh (cfg : Bool) (now lc : Nat) (s : Str)
    (hp : parseUInt U64_MOD (trimChars s) = some lc) (hnow : now < U64_MOD)
    (hle : lc ≤ now) (hlt : now - lc < 86400) :
    should_check cfg now (FileRead.content s) = false := by
  cases cfg with
  | false => rfl
  | true =>
    have hlc : lc < U64_MOD := parseUInt_lt hp
    simp only [should_check, hp, Bool.not_true, Bool.false_eq_true, if_false]
    rw [wsub64_exact now lc hnow hlc hle]
    simp only [CHECK_INTERVAL_SECS, decide_eq_false_iff_not]
    omega

theorem should_check_stale (now lc : Nat) (s : Str)
    (hp : parseUInt U64_MOD (trimChars s) = some lc) (hnow : now < U64_MOD)
    (hle : lc ≤ now) (hge : 86400 ≤ now - lc) :
    should_check true now (FileRead.content s) = true := by
  have hlc : lc < U64_MOD := parseUInt_lt hp
  simp only [should_check, hp, Bool.not_true, Bool.false_eq_true, if_false]
  rw [wsub64_exact now lc hnow hlc hle]
  simp only [CHECK_INTERVAL_SECS, decide_eq_true_eq]
  omega

theorem should_check_unparseable (now : Nat) (s : Str)
    (hp : parseUInt U64_MOD (trimChars s) = none) :
    should_check true now (FileRead.content s) = true := by
  simp [should_check, hp]

/-- Claim C3: with a readable, parseable `last-check` timestamp less than
24 hours old, `check_for_update` returns `none`, performs no network
request and leaves the file untouched; otherwise (file missing,
unreadable, unparseable, or at least 24 hours old — with the config
directory available) it persists the current time as the new `last-check`
value and performs the remote check, persisting the timestamp even when
the check outcome `r` is a failure. -/
theorem C3_rate_limited_check :
    (∀ (cfg : Bool) (now lc : Nat) (s current : Str) (r : Remote),
        parseUInt U64_MOD (trimChars s) = some lc → now < U64_MOD →
        lc ≤ now → now - lc < 86400 →
        check_for_update cfg now (FileRead.content s) current r
          = { result := none, last_check_file := FileRead.content s,
              network_performed := false })
    ∧ (∀ (now : Nat) (current : Str) (r : Remote), now < U64_MOD →
        check_for_update true now FileRead.missing current r
          = { result := check_for_update_internal current r,
              last_check_file := FileRead.content (Nat.toDigits 10 now),
              network_performed := true })
    ∧ (∀ (now : Nat) (current : Str) (r : Remote), now < U64_MOD →
        check_for_update true now FileRead.unreadable current r
          = { result := check_for_update_internal current r,
              last_check_file := FileRead.content (Nat.toDigits 10 now),
              network_performed := true })
    ∧ (∀ (now : Nat) (s current : Str) (r : Remote), now < U64_MOD →
        parseUInt U64_MOD (trimChars s) = none →
        check_for_update true now (FileRead.content s) current r
          = { result := check_for_update_internal current r,
              last_check_file := FileRead.content (Nat.toDigits 10 now),
              network_performed := true })
    ∧ (∀ (now lc : Nat) (s current : Str) (r : Remote), now < U64_MOD →
        parseUInt U64_MOD (trimChars s) = some lc →
        lc ≤ now → 86400 ≤ now - lc →
        check_for_update true now (FileRead.content s) current r
          = { result := check_for_update_internal current r,
              last_check_file := FileRead.content (Nat.toDigits 10 now),
              network_performed := true }) := by
  refine ⟨?_, ?_, ?_, ?_, ?_⟩
  · intro cfg now lc s current r hp hnow hle hlt
    simp [check_for_update, should_check_fresh cfg now lc s hp hnow hle hlt]
  · intro now current r hnow
    simp [check_for_update, should_check, save_last_check, Nat.mod_eq_of_lt hnow]
  · intro now current r hnow
    simp [check_for_update, should_check, save_last_check, Nat.mod_eq_of_lt hnow]
  · intro now s current r hnow hp
    simp [check_for_update, should_check_unparseable now s hp, save_last_check,
      Nat.mod_eq_of_lt hnow]
  · intro now lc s current r hnow hp hle hge
    simp [check_for_update, should_check_stale now lc s hp hnow hle hge,
      save_last_check, Nat.mod_eq_of_lt hnow]

/-- Witness for C3 at concrete inputs. -/
theorem C3_rate_limited_check_witness :
    check_for_update true 1 (FileRead.content "0".data) "0.1.0".data Remote.fail
      = { result := none, last_check_file := FileRead.content "0".data,
          network_performed := false } :=
  C3_rate_limited_check.1 true 1 0 "0".data "0.1.0".data Remote.fail
    (by decide) (by decide) (by decide) (by decide)

/-- Claim C9: `check_for_update_forced` runs the same remote-check logic
as `check_for_update` but never reads or writes the `last-check` file:
the file state after a forced check equals the state before it, for every
prior state. -/
theorem C9_forced_check_frame :
    ∀ (f : FileRead) (current : Str) (r : Remote),
      (check_for_update_forced f current r).2 = f
      ∧ (check_for_update_forced f current r).1 = check_for_update_internal current r
      ∧ (∀ (cfg : Bool) (now : Nat),
          should_check cfg now f = true →
          (check_for_update cfg now f current r).result
            = (check_for_update_forced f current r).1) := by
  intro f current r
  refine ⟨rfl, rfl, ?_⟩
  intro cfg now h
  simp [check_for_update, h, check_for_update_forced]

/-- Witness for C9 at concrete inputs. -/
theorem C9_forced_check_frame_witness :
    (check_for_update true 0 FileRead.missing "0.1.0".data Remote.fail).result
      = (check_for_update_forced FileRead.missing "0.1.0".data Remote.fail).1 :=
  (C9_forced_check_frame FileRead.missing "0.1.0".data Remote.fail).2.2 true 0
    (by decide)

/-- Claim C10: `should_check` computes elapsed time as the wrapping `u64`
subtraction `now - last_check` with no guard against a future-dated
timestamp: for `last_check ≤ now` the subtraction is exact and the check
fires iff at least 86400 seconds elapsed, while for `last_check > now`
the subtraction underflows, yielding at least 86400 whenever
`last_check - now ≤ 2^64 - 86400`, so the network check proceeds. -/
theorem C10_underflow_breaks_rate_limit :
    ∀ (now lc : Nat) (s : Str),
      parseUInt U64_MOD (trimChars s) = some lc → now < U64_MOD →
      (lc ≤ now →
        wsub64 now lc = now - lc
        ∧ should_check true now (FileRead.content s) = decide (now - lc ≥ 86400))
      ∧ (now < lc → lc - now ≤ U64_MOD - 86400 →
          wsub64 now lc ≥ 86400
          ∧ should_check true now (FileRead.content s) = true) := by
  intro now lc s hp hnow
  have hlc : lc < U64_MOD := parseUInt_lt hp
  constructor
  · intro hle
    have hw := wsub64_exact now lc hnow hlc hle
    refine ⟨hw, ?_⟩
    simp only [should_check, hp, Bool.not_true, Bool.false_eq_true, if_false]
    rw [hw]
    rfl
  · intro hgt hbound
    have hw := wsub64_wrap now lc hnow hlc hgt
    have hge : wsub64 now lc ≥ 86400 := by
      rw [hw]
      simp only [U64_MOD] at *
      omega
    refine ⟨hge, ?_⟩
    simp only [should_check, hp, Bool.not_true, Bool.false_eq_true, if_false]
    simp only [CHECK_INTERVAL_SECS, decide_eq_true_eq]
    exact hge

/-- Witness for C10 at concrete inputs. -/
theorem C10_underflow_breaks_rate_limit_witness :
    wsub64 0 1 ≥ 86400 ∧ should_check true 0 (FileRead.content "1".data) = true :=
  (C10_underflow_breaks_rate_limit 0 1 "1".data (by decide) (by decide)).2
    (by decide) (by decide)

/-- Result of `load_available_update`: the returned value and the
`update-available` file afterwards. -/
structure LoadResult where
  result : Option Str
  update_file : FileRead
deriving DecidableEq, Repr

/-- `load_available_update` (`updater.rs:119-131`), parametrized by the
installed version: a missing config dir or an unreadable/missing file
yields `none` (the `?`/`.ok()?` early returns); otherwise trim the stored
text, strip leading `v`, and either return the trimmed value (file kept)
when newer than current, or delete the stale file and return `none`. -/
def load_available_update (cfg : Bool) (current : Str) (f : FileRead) :
    LoadResult :=
  if !cfg then { result := none, update_file := f }
  else
    match f with
    | FileRead.missing => { result := none, update_file := FileRead.missing }
    | FileRead.unreadable => { result := none, update_file := FileRead.unreadable }
    | FileRead.content s =>
      let version := trimChars s
      let latest := trim_start_matches_v version
      if is_newer_version latest current then
        { result := some version, update_file := FileRead.content s }
      else
        { result := none, update_file := FileRead.missing }

/-- Claim C4: a persisted `update-available` value that is not strictly
newer than the current version makes `load_available_update` return
`none` and delete the stored file, and a second call again returns `none`
without error; a strictly newer stored value is returned with the file
left in place. -/
theorem C4_stale_update_self_healing :
    ∀ current s : Str,
      (is_newer_version (trim_start_matches_v (trimChars s)) current = false →
        load_available_update true current (FileRead.content s)
          = { result := none, update_file := FileRead.missing }
        ∧ load_available_update true current
            (load_available_update true current (FileRead.content s)).update_file
          = { result := none, update_file := FileRead.missing })
      ∧ (is_newer_version (trim_start_matches_v (trimChars s)) current = true →
          load_available_update true current (FileRead.content s)
            = { result := some (trimChars s), update_file := FileRead.content s }) := by
  intro current s
  constructor
  · intro h
    have h1 : load_available_update true current (FileRead.content s)
        = { result := none, update_file := FileRead.missing } := by
      simp [load_available_update, h]
    exact ⟨h1, by rw [h1]; rfl⟩
  · intro h
    simp [load_available_update, h]

/-- Witness for C4 at concrete inputs. -/
theorem C4_stale_update_self_healing_witness :
    load_available_update true "0.1.0".data (FileRead.content "0.1.0".data)
      = { result := none, update_file := FileRead.missing } :=
  ((C4_stale_update_self_healing "0.1.0".data "0.1.0".data).1 (by decide)).1

/-! ## `src/main.rs`: the coordinator's shared location cell

The shared `Arc<Mutex<Option<GeoInfo>>>` cell is embedded as an
`Option GeoInfo` value, a fetch outcome as `Except GeoError GeoInfo`, and
each event-handling arm of the coordinator as a function from the cell
and the outcome to the new cell (lock acquisition is assumed to succeed;
the tray redraw request does not touch the cell). -/

/-- `GeoInfo` (`geo.rs:13-25`). -/
structure GeoInfo where
  query : Str
  country : Str
  country_code : Str
  city : Str
  isp : Str
deriving DecidableEq, Repr

/-- `GeoError` (`geo.rs:42-49`); the transport error payload is dropped. -/
inductive GeoError
  | Request
  | ApiError (message : Str)
  | InvalidResponse
deriving DecidableEq, Repr

/-- The `TrayCommand::Refresh` arm (`main.rs:157-171`): on `Ok`, replace
the cell wholesale with the new snapshot; on `Err`, log only. -/
def handleRefreshCommand (cell : Option GeoInfo)
    (res : Except GeoError GeoInfo) : Option GeoInfo :=
  match res with
  | Except.ok info => some info
  | Except.error _ => cell

/-- One firing of the periodic refresh task (`main.rs:130-146`): same
cell effect as a manual refresh. -/
def handlePeriodicTick (cell : Option GeoInfo)
    (res : Except GeoError GeoInfo) : Option GeoInfo :=
  match res with
  | Except.ok info => some info
  | Except.error _ => cell

/-- The network-event arm (`main.rs:254-278`): `Connected` triggers a
fetch whose `Ok` replaces the cell and whose `Err` is logged only;
`Disconnected` is logged only and leaves the cell untouched. -/
def handleNetworkEvent (cell : Option GeoInfo) (ev : NetworkEvent)
    (res : Except GeoError GeoInfo) : Option GeoInfo :=
  match ev with
  | NetworkEvent.Connected =>
    match res with
    | Except.ok info => some info
    | Except.error _ => cell
  | NetworkEvent.Disconnected => cell

/-- Claim C5: a failed location fetch — from a manual `Refresh`, the
periodic timer, or a post-`Connected` refresh — leaves the shared
location cell exactly as it was; the cell is replaced wholesale (with the
fetched snapshot, independent of the old value) only on a successful
fetch; and a `Disconnected` event never modifies the cell. -/
theorem C5_failed_fetch_frame :
    ∀ (cell : Option GeoInfo) (e : GeoError) (info : GeoInfo)
      (res : Except GeoError GeoInfo),
      handleRefreshCommand cell (Except.error e) = cell
      ∧ handlePeriodicTick cell (Except.error e) = cell
      ∧ handleNetworkEvent cell NetworkEvent.Connected (Except.error e) = cell
      ∧ handleRefreshCommand cell (Except.ok info) = some info
      ∧ handlePeriodicTick cell (Except.ok info) = some info
      ∧ handleNetworkEvent cell NetworkEvent.Connected (Except.ok info) = some info
      ∧ handleNetworkEvent cell NetworkEvent.Disconnected res = cell := by
  intro cell e info res
  exact ⟨rfl, rfl, rfl, rfl, rfl, rfl, rfl⟩

/-! ## `src/icons.rs`: flag lookup

The embedded `FLAGS` table is generated at build time (not part of
`src/`), so it is a parameter here: an association list from country
codes to PNG byte arrays, whose iteration order gives `values().next()`.
The spec records that it is non-empty (over 100 flags) with non-empty
images. -/

/-- `FLAGS.get(code)`: first-match association lookup. -/
def lookupFlag (flags : List (Str × List Nat)) (code : Str) : Option (List Nat) :=
  match flags with
  | [] => none
  | (k, v) :: rest => if k = code then some v else lookupFlag rest code

/-- Rust `str::to_lowercase` on ASCII country codes. -/
def toLowerStr (s : Str) : Str := s.map Char.toLower

/-- `get_flag` (`icons.rs:18-32`): look up the lowercased code; fall back
to the `xx` flag; fall back to the first available flag; fall back to the
empty byte array. -/
def get_flag (flags : List (Str × List Nat)) (country_code : Str) : List Nat :=
  let code := toLowerStr country_code
  match lookupFlag flags code with
  | some d => d
  | none =>
    match lookupFlag flags "xx".data with
    | some d => d
    | none =>
      match flags.head? with
      | some e => e.2
      | none => []

theorem lookupFlag_mem (flags : List (Str × List Nat)) (code : Str)
    (d : List Nat) (h : lookupFlag flags code = some d) :
    ∃ k, (k, d) ∈ flags := by
  induction flags with
  | nil => simp [lookupFlag] at h
  | cons e rest ih =>
    obtain ⟨k, v⟩ := e
    simp only [lookupFlag] at h
    split_ifs at h with hk
    · injection h with hv
      exact ⟨k, by simp [hv]⟩
    · obtain ⟨k₁, hk₁⟩ := ih h
      exact ⟨k₁, List.mem_cons_of_mem _ hk₁⟩

/-- Claim C8: `get_flag` is total and, on a non-empty table whose images
are all non-empty, returns a non-empty image for every country-code
string; it returns the flag stored under the lowercased code when
present, else the `xx` fallback, else the first available flag; lookup
is case-insensitive, so `get_flag "US"` and `get_flag "us"` return
identical bytes. -/
theorem C8_flag_lookup_total :
    ∀ (flags : List (Str × List Nat)) (country_code : Str),
      (flags ≠ [] → (∀ e ∈ flags, e.2 ≠ []) →
        get_flag flags country_code ≠ [])
      ∧ (∀ d, lookupFlag flags (toLowerStr country_code) = some d →
          get_flag flags country_code = d)
      ∧ (lookupFlag flags (toLowerStr country_code) = none →
          ∀ d, lookupFlag flags "xx".data = some d →
            get_flag flags country_code = d)
      ∧ (lookupFlag flags (toLowerStr country_code) = none →
          lookupFlag flags "xx".data = none →
          ∀ e rest, flags = e :: rest → get_flag flags country_code = e.2)
      ∧ (∀ other : Str, toLowerStr country_code = toLowerStr other →
          get_flag flags country_code = get_flag flags other)
      ∧ get_flag flags "US".data = get_flag flags "us".data := by
  intro flags country_code
  have hchain : ∀ other : Str, toLowerStr country_code = toLowerStr other →
      get_flag flags country_code = get_flag flags other := by
    intro other hlo
    simp only [get_flag, hlo]
  refine ⟨?_, ?_, ?_, ?_, hchain, ?_⟩
  · intro hne hval
    simp only [get_flag]
    cases h₁ : lookupFlag flags (toLowerStr country_code) with
    | some d =>
      obtain ⟨k, hk⟩ := lookupFlag_mem flags _ d h₁
      exact hval (k, d) hk
    | none =>
      cases h₂ : lookupFlag flags "xx".data with
      | some d =>
        obtain ⟨k, hk⟩ := lookupFlag_mem flags _ d h₂
        exact hval (k, d) hk
      | none =>
        cases hf : flags with
        | nil => exact absurd hf hne
        | cons e rest =>
          simp only [List.head?]
          exact hval e (by simp [hf])
  · intro d h₁
    simp only [get_flag, h₁]
  · intro h₁ d h₂
    simp only [get_flag, h₁, h₂]
  · intro h₁ h₂ e rest hf
    subst hf
    simp only [get_flag, h₁, h₂, List.head?]
  · have : toLowerStr "US".data = toLowerStr "us".data := by decide
    simp only [get_flag, this]

/-- Witness for C8 at concrete inputs. -/
theorem C8_flag_lookup_total_witness :
    get_flag [("us".data, [80]), ("xx".data, [81])] "ZZ".data ≠ [] :=
  (C8_flag_lookup_total [("us".data, [80]), ("xx".data, [81])] "ZZ".data).1
    (by decide) (by decide)
